import Mathlib

/-!
Verification of `crates/flipperzero/src/storage.rs`: a shallow embedding of
the storage wrapper (error taxonomy, `OpenOptions` builder, `File` open /
read / write / seek, and the `Seek` / `Write` trait default methods), with
theorems settling the specification claims.  The native firmware layer
(`flipperzero-sys`) is not part of the sources; native calls are modelled
as abstract oracles, and where a claim needs concrete native behaviour the
model is explicitly marked as modelled from the spec.
-/

namespace Storage

/-! ## Native status codes

Modelled from the spec: the `sys::FS_Error_*` constants live in the
`flipperzero-sys` crate (not among the sources).  The spec's invariant is
that every native status code maps to exactly one variant, so the codes are
distinct; we use the firmware's numeric values 0–9. -/

def FS_Error_FSE_OK : Nat := 0

def FS_Error_FSE_NOT_READY : Nat := 1

def FS_Error_FSE_EXIST : Nat := 2

def FS_Error_FSE_NOT_EXIST : Nat := 3

def FS_Error_FSE_INVALID_PARAMETER : Nat := 4

def FS_Error_FSE_DENIED : Nat := 5

def FS_Error_FSE_INVALID_NAME : Nat := 6

def FS_Error_FSE_INTERNAL : Nat := 7

def FS_Error_FSE_NOT_IMPLEMENTED : Nat := 8

def FS_Error_FSE_ALREADY_OPEN : Nat := 9

/-- Embedding of `enum Error` (storage.rs lines 10–22). -/
inductive Error where
  | Ok
  | NotReady
  | Exists
  | NotExists
  | InvalidParameter
  | Denied
  | InvalidName
  | Internal
  | NotImplemented
  | AlreadyOpen
deriving DecidableEq, Repr

/-- Embedding of `Error::to_sys` (storage.rs lines 25–38): total pure map to
the native status code. -/
def Error.to_sys : Error → Nat
  | .Ok => FS_Error_FSE_OK
  | .NotReady => FS_Error_FSE_NOT_READY
  | .Exists => FS_Error_FSE_EXIST
  | .NotExists => FS_Error_FSE_NOT_EXIST
  | .InvalidParameter => FS_Error_FSE_INVALID_PARAMETER
  | .Denied => FS_Error_FSE_DENIED
  | .InvalidName => FS_Error_FSE_INVALID_NAME
  | .Internal => FS_Error_FSE_INTERNAL
  | .NotImplemented => FS_Error_FSE_NOT_IMPLEMENTED
  | .AlreadyOpen => FS_Error_FSE_ALREADY_OPEN

/-- Embedding of `Error::from_sys` (storage.rs lines 40–54).  The source
ends in `_ => unimplemented!()`, a panic on an unrecognized code; that
diverging branch is modelled as `none`. -/
def Error.from_sys (err : Nat) : Option Error :=
  if err = FS_Error_FSE_OK then some .Ok
  else if err = FS_Error_FSE_NOT_READY then some .NotReady
  else if err = FS_Error_FSE_EXIST then some .Exists
  else if err = FS_Error_FSE_NOT_EXIST then some .NotExists
  else if err = FS_Error_FSE_INVALID_PARAMETER then some .InvalidParameter
  else if err = FS_Error_FSE_DENIED then some .Denied
  else if err = FS_Error_FSE_INVALID_NAME then some .InvalidName
  else if err = FS_Error_FSE_INTERNAL then some .Internal
  else if err = FS_Error_FSE_NOT_IMPLEMENTED then some .NotImplemented
  else if err = FS_Error_FSE_ALREADY_OPEN then some .AlreadyOpen
  else none

/-! ## Access / open mode flags

Modelled from the spec: the `sys::FS_AccessMode_*` and `sys::FS_OpenMode_*`
constants live in the `flipperzero-sys` crate (not among the sources).  The
spec describes the two fields as bitfields of independent named flags, so
each constant is a distinct single bit (firmware values). -/

def FS_AccessMode_FSAM_READ : Nat := 1

def FS_AccessMode_FSAM_WRITE : Nat := 2

def FS_OpenMode_FSOM_OPEN_EXISTING : Nat := 1

def FS_OpenMode_FSOM_OPEN_ALWAYS : Nat := 2

def FS_OpenMode_FSOM_OPEN_APPEND : Nat := 4

def FS_OpenMode_FSOM_CREATE_NEW : Nat := 8

def FS_OpenMode_FSOM_CREATE_ALWAYS : Nat := 16

/-- Embedding of `struct OpenOptions` (storage.rs lines 126–130): two `u8`
bitfields, modelled as `Nat` with the invariant `< 256` carried in the
theorems. -/
structure OpenOptions where
  access_mode : Nat
  open_mode : Nat
deriving DecidableEq, Repr

/-- Embedding of `OpenOptions::new` / `Default` (storage.rs lines 133–135). -/
def OpenOptions.new : OpenOptions := ⟨0, 0⟩

/-- Embedding of `OpenOptions::from_parts` (storage.rs lines 137–142). -/
def OpenOptions.from_parts (access_mode open_mode : Nat) : OpenOptions :=
  ⟨access_mode, open_mode⟩

/-- Embedding of `OpenOptions::read` (storage.rs lines 145–154).  Rust's
`!FSAM_READ` on a `u8` is the 8-bit complement, i.e. `255 ^^^ mask`. -/
def OpenOptions.read (o : OpenOptions) (set : Bool) : OpenOptions :=
  OpenOptions.from_parts
    (if set then o.access_mode ||| FS_AccessMode_FSAM_READ
     else o.access_mode &&& (255 ^^^ FS_AccessMode_FSAM_READ))
    o.open_mode

/-- Embedding of `OpenOptions::write` (storage.rs lines 157–166). -/
def OpenOptions.write (o : OpenOptions) (set : Bool) : OpenOptions :=
  OpenOptions.from_parts
    (if set then o.access_mode ||| FS_AccessMode_FSAM_WRITE
     else o.access_mode &&& (255 ^^^ FS_AccessMode_FSAM_WRITE))
    o.open_mode

/-- Embedding of `OpenOptions::open_existing` (storage.rs lines 169–178). -/
def OpenOptions.open_existing (o : OpenOptions) (set : Bool) : OpenOptions :=
  OpenOptions.from_parts o.access_mode
    (if set then o.open_mode ||| FS_OpenMode_FSOM_OPEN_EXISTING
     else o.open_mode &&& (255 ^^^ FS_OpenMode_FSOM_OPEN_EXISTING))

/-- Embedding of `OpenOptions::open_always` (storage.rs lines 181–190). -/
def OpenOptions.open_always (o : OpenOptions) (set : Bool) : OpenOptions :=
  OpenOptions.from_parts o.access_mode
    (if set then o.open_mode ||| FS_OpenMode_FSOM_OPEN_ALWAYS
     else o.open_mode &&& (255 ^^^ FS_OpenMode_FSOM_OPEN_ALWAYS))

/-- Embedding of `OpenOptions::open_append` (storage.rs lines 193–202). -/
def OpenOptions.open_append (o : OpenOptions) (set : Bool) : OpenOptions :=
  OpenOptions.from_parts o.access_mode
    (if set then o.open_mode ||| FS_OpenMode_FSOM_OPEN_APPEND
     else o.open_mode &&& (255 ^^^ FS_OpenMode_FSOM_OPEN_APPEND))

/-- Embedding of `OpenOptions::create_new` (storage.rs lines 205–214). -/
def OpenOptions.create_new (o : OpenOptions) (set : Bool) : OpenOptions :=
  OpenOptions.from_parts o.access_mode
    (if set then o.open_mode ||| FS_OpenMode_FSOM_CREATE_NEW
     else o.open_mode &&& (255 ^^^ FS_OpenMode_FSOM_CREATE_NEW))

/-- Embedding of `OpenOptions::create_always` (storage.rs lines 217–226). -/
def OpenOptions.create_always (o : OpenOptions) (set : Bool) : OpenOptions :=
  OpenOptions.from_parts o.access_mode
    (if set then o.open_mode ||| FS_OpenMode_FSOM_CREATE_ALWAYS
     else o.open_mode &&& (255 ^^^ FS_OpenMode_FSOM_CREATE_ALWAYS))

/-- Claim C2: for every variant `e` of the `Error` enum, converting to the
native status code and back is the identity: `from_sys (to_sys e) = e`
(the reverse map being partial, the result is `some e`). -/
theorem from_sys_to_sys_id (e : Error) : Error.from_sys e.to_sys = some e := by
  cases e <;> rfl

/-- Specification-side predicate for the flag setters: in the `u8` field
`new`, bit `i` equals `b`, every other bit of the eight-bit field agrees
with `old`, and the eight-bit bound is preserved. -/
def setsBitOnly (old new : Nat) (i : Nat) (b : Bool) : Prop :=
  new < 256 ∧ new.testBit i = b ∧
    ∀ j, j < 8 → j ≠ i → new.testBit j = old.testBit j

lemma setsBitOnly_or (a i : Nat) (hi : i < 8) (ha : a < 256) :
    setsBitOnly a (a ||| 2 ^ i) i true := by
  have h256 : (256 : Nat) = 2 ^ 8 := by norm_num
  refine ⟨?_, ?_, ?_⟩
  · rw [h256]
    exact Nat.or_lt_two_pow (h256 ▸ ha) (Nat.pow_lt_pow_right (by norm_num) hi)
  · simp [Nat.testBit_lor, Nat.testBit_two_pow_self]
  · intro j hj hji
    simp [Nat.testBit_lor, Nat.testBit_two_pow_of_ne (fun h => hji h.symm)]

lemma testBit_255_of_lt (j : Nat) (hj : j < 8) : Nat.testBit 255 j = true := by
  interval_cases j <;> decide

lemma setsBitOnly_and (a i : Nat) (hi : i < 8) (ha : a < 256) :
    setsBitOnly a (a &&& (255 ^^^ 2 ^ i)) i false := by
  refine ⟨lt_of_le_of_lt Nat.and_le_left ha, ?_, ?_⟩
  · simp [Nat.testBit_land, Nat.testBit_xor, testBit_255_of_lt i hi,
      Nat.testBit_two_pow_self]
  · intro j hj hji
    simp [Nat.testBit_land, Nat.testBit_xor, testBit_255_of_lt j hj,
      Nat.testBit_two_pow_of_ne (fun h => hji h.symm)]

/-- Claim C10: each flag-setter (`read`, `write`, `open_existing`,
`open_always`, `open_append`, `create_new`, `create_always`) returns a new
`OpenOptions` in which exactly the one bit named by the setter is set or
cleared in the appropriate field according to the boolean, every other bit
of both fields being unchanged (the receiver is a pure value, so it is
itself unmodified). -/
theorem openOptions_setter_bits (o : OpenOptions) (b : Bool)
    (ha : o.access_mode < 256) (hm : o.open_mode < 256) :
    (setsBitOnly o.access_mode (o.read b).access_mode 0 b ∧
      (o.read b).open_mode = o.open_mode) ∧
    (setsBitOnly o.access_mode (o.write b).access_mode 1 b ∧
      (o.write b).open_mode = o.open_mode) ∧
    (setsBitOnly o.open_mode (o.open_existing b).open_mode 0 b ∧
      (o.open_existing b).access_mode = o.access_mode) ∧
    (setsBitOnly o.open_mode (o.open_always b).open_mode 1 b ∧
      (o.open_always b).access_mode = o.access_mode) ∧
    (setsBitOnly o.open_mode (o.open_append b).open_mode 2 b ∧
      (o.open_append b).access_mode = o.access_mode) ∧
    (setsBitOnly o.open_mode (o.create_new b).open_mode 3 b ∧
      (o.create_new b).access_mode = o.access_mode) ∧
    (setsBitOnly o.open_mode (o.create_always b).open_mode 4 b ∧
      (o.create_always b).access_mode = o.access_mode) := by
  cases b
  · exact ⟨⟨setsBitOnly_and _ 0 (by norm_num) ha, rfl⟩,
      ⟨setsBitOnly_and _ 1 (by norm_num) ha, rfl⟩,
      ⟨setsBitOnly_and _ 0 (by norm_num) hm, rfl⟩,
      ⟨setsBitOnly_and _ 1 (by norm_num) hm, rfl⟩,
      ⟨setsBitOnly_and _ 2 (by norm_num) hm, rfl⟩,
      ⟨setsBitOnly_and _ 3 (by norm_num) hm, rfl⟩,
      ⟨setsBitOnly_and _ 4 (by norm_num) hm, rfl⟩⟩
  · exact ⟨⟨setsBitOnly_or _ 0 (by norm_num) ha, rfl⟩,
      ⟨setsBitOnly_or _ 1 (by norm_num) ha, rfl⟩,
      ⟨setsBitOnly_or _ 0 (by norm_num) hm, rfl⟩,
      ⟨setsBitOnly_or _ 1 (by norm_num) hm, rfl⟩,
      ⟨setsBitOnly_or _ 2 (by norm_num) hm, rfl⟩,
      ⟨setsBitOnly_or _ 3 (by norm_num) hm, rfl⟩,
      ⟨setsBitOnly_or _ 4 (by norm_num) hm, rfl⟩⟩

/-- Witness for C10 at the concrete configuration `OpenOptions::new()` with
`set = true`: `read(true)` sets exactly the read bit of the access mode. -/
theorem openOptions_setter_bits_witness :
    setsBitOnly OpenOptions.new.access_mode
      (OpenOptions.new.read true).access_mode 0 true :=
  (openOptions_setter_bits OpenOptions.new true (by decide) (by decide)).1.1

/-! ## The default `Write::write_all` loop -/

/-- Outcome of a `write_all` run: `done` carries the final writer state, the
returned `Result`, and the number of underlying `write` calls made;
`panicked` models the Rust panic of `&buf[n..]` when a write reports more
bytes than remain. -/
inductive WriteAllOut (σ : Type) where
  | done (s : σ) (r : Except Error Unit) (calls : Nat)
  | panicked

/-- Embedding of the default `Write::write_all` (storage.rs lines 112–123),
indexed by fuel since the source loop need not terminate.  The writer `w`
is an arbitrary implementation of `write`: from its state and the remaining
buffer it produces a new state and the result of `self.write(buf)`.  The
`Ok(0)` arm of the source is an empty `// TODO` block, so the loop re-enters
with the buffer unchanged.  `none` means the fuel ran out. -/
def writeAllGo {σ α : Type} (w : σ → List α → σ × Except Error Nat) :
    Nat → σ → List α → Option (WriteAllOut σ)
  | 0, _, _ => none
  | fuel + 1, s, buf =>
    if buf.isEmpty then some (.done s (.ok ()) 0)
    else
      match w s buf with
      | (s', .error e) => some (.done s' (.error e) 1)
      | (s', .ok 0) =>
        (writeAllGo w fuel s' buf).map fun
          | .done t r k => .done t r (k + 1)
          | .panicked => .panicked
      | (s', .ok n) =>
        if n ≤ buf.length then
          (writeAllGo w fuel s' (buf.drop n)).map fun
            | .done t r k => .done t r (k + 1)
            | .panicked => .panicked
        else some .panicked

/-- The property that the `write_all` loop never finishes, whatever fuel it
is given. -/
def loopsForever {σ α : Type} (w : σ → List α → σ × Except Error Nat)
    (s : σ) (buf : List α) : Prop :=
  ∀ fuel, writeAllGo w fuel s buf = none

/-- A writer whose `write` always reports success with 0 bytes written. -/
def alwaysZeroWriter : Unit → List Nat → Unit × Except Error Nat :=
  fun _ _ => ((), .ok 0)

/-- A writer whose `write` always reports success with the full remaining
length. -/
def fullWriter : Unit → List Nat → Unit × Except Error Nat :=
  fun _ b => ((), .ok b.length)

lemma writeAllGo_mono {σ α : Type} (w : σ → List α → σ × Except Error Nat) :
    ∀ (f1 f2 : Nat), f1 ≤ f2 → ∀ s buf out,
      writeAllGo w f1 s buf = some out → writeAllGo w f2 s buf = some out := by
  intro f1
  induction f1 with
  | zero =>
    intro f2 _ s buf out h
    simp [writeAllGo] at h
  | succ f ih =>
    intro f2 hle s buf out h
    obtain ⟨f2', rfl⟩ : ∃ f2', f2 = f2' + 1 := ⟨f2 - 1, by omega⟩
    have hf : f ≤ f2' := by omega
    by_cases hb : buf.isEmpty
    · simpa [writeAllGo, hb] using h
    · rcases hwv : w s buf with ⟨s', r⟩
      rcases r with e | n
      · simpa [writeAllGo, hb, hwv] using h
      · rcases n with _ | n
        · simp only [writeAllGo, hb, hwv, if_neg, Bool.false_eq_true,
            not_false_eq_true, if_false] at h ⊢
          rw [Option.map_eq_some'] at h
          obtain ⟨t, ht, hgt⟩ := h
          rw [Option.map_eq_some']
          exact ⟨t, ih f2' hf s' buf t ht, hgt⟩
        · by_cases hn : n + 1 ≤ buf.length
          · simp only [writeAllGo, hb, hn, Bool.false_eq_true,
              not_false_eq_true, if_false, if_true, hwv] at h ⊢
            rw [Option.map_eq_some'] at h
            obtain ⟨t, ht, hgt⟩ := h
            rw [Option.map_eq_some']
            exact ⟨t, ih f2' hf s' (buf.drop (n + 1)) t ht, hgt⟩
          · simpa [writeAllGo, hb, hwv, hn] using h

/-- Claim C3 (amended): provided no `write` call reports `Ok(0)` on a
nonempty buffer, the `write_all` loop terminates within `|buf| + 1` write
calls: each iteration advances by the successful write's count (or panics
if the count exceeds the remainder), returns the first `Err` immediately,
or ends the loop with the buffer fully consumed. -/
theorem writeAll_terminates_of_no_zero_write {σ α : Type}
    (w : σ → List α → σ × Except Error Nat)
    (hw : ∀ t b, b ≠ [] → (w t b).2 ≠ .ok 0) (buf : List α) (s : σ) :
    ∃ out, writeAllGo w (buf.length + 1) s buf = some out := by
  have key : ∀ (k : Nat) (b : List α), b.length ≤ k → ∀ t,
      ∃ out, writeAllGo w (b.length + 1) t b = some out := by
    intro k
    induction k with
    | zero =>
      intro b hbk t
      have : b = [] := List.eq_nil_of_length_eq_zero (by omega)
      subst this
      exact ⟨.done t (.ok ()) 0, rfl⟩
    | succ k ih =>
      intro b hbk t
      by_cases hb : b.isEmpty
      · exact ⟨.done t (.ok ()) 0, by simp [writeAllGo, hb]⟩
      · have hbne : b ≠ [] := by
          cases b
          · simp at hb
          · simp
        rcases hwv : w t b with ⟨t', r⟩
        rcases r with e | n
        · exact ⟨.done t' (.error e) 1, by simp [writeAllGo, hb, hwv]⟩
        · rcases n with _ | n
          · exact absurd (by rw [hwv]) (hw t b hbne)
          · by_cases hn : n + 1 ≤ b.length
            · have hlen : (b.drop (n + 1)).length ≤ k := by
                simp only [List.length_drop]
                omega
              obtain ⟨out, hout⟩ := ih (b.drop (n + 1)) hlen t'
              have hmono : writeAllGo w b.length t' (b.drop (n + 1)) = some out := by
                refine writeAllGo_mono w _ _ ?_ _ _ _ hout
                simp only [List.length_drop]
                have : 1 ≤ b.length := by
                  cases b
                  · exact absurd rfl hbne
                  · simp
                omega
              cases out with
              | done u r' c =>
                refine ⟨.done u r' (c + 1), ?_⟩
                simp only [writeAllGo, hb, hwv, hn, Bool.false_eq_true,
                  not_false_eq_true, if_false, if_true]
                rw [hmono]
                rfl
              | panicked =>
                refine ⟨.panicked, ?_⟩
                simp only [writeAllGo, hb, hwv, hn, Bool.false_eq_true,
                  not_false_eq_true, if_false, if_true]
                rw [hmono]
                rfl
            · exact ⟨.panicked, by simp [writeAllGo, hb, hwv, hn]⟩
  exact key buf.length buf le_rfl s

/-- Witness for the amended C3 at a concrete writer (always writes one
element) and buffer `[5, 6]`. -/
theorem writeAll_terminates_witness :
    ∃ out, writeAllGo (fun (s : Unit) (_ : List Nat) => (s, .ok 1)) 3 () [5, 6]
      = some out :=
  writeAll_terminates_of_no_zero_write _
    (by intro t b hb; simp) [5, 6] ()

/-- Counterexample to C3 as stated: a writer returning `Ok(0)` with data
remaining makes `write_all` loop without bound — on buffer `[37]` the loop
finishes under no amount of fuel, because the `Ok(0)` arm of the source is
an empty `// TODO` block that re-enters the loop with the buffer unchanged. -/
theorem writeAll_zero_write_loops : loopsForever alwaysZeroWriter () [37] := by
  intro fuel
  induction fuel with
  | zero => rfl
  | succ f ih => simp [writeAllGo, alwaysZeroWriter, ih]

/-- Counterexample to C9 as stated: on the empty buffer (length `L = 0`)
`write_all` with the always-full writer makes zero underlying write calls
and not exactly one. -/
theorem writeAll_full_empty_zero_calls :
    writeAllGo fullWriter 1 () ([] : List Nat) = some (.done () (.ok ()) 0) ∧
      (0 : Nat) ≠ 1 :=
  ⟨rfl, by decide⟩

/-- Claim C9 (amended): for a buffer of length `L`, if the underlying write
always reports success with the full remaining length, `write_all`
terminates after exactly one underlying write call when `L ≥ 1` (zero calls
when `L = 0`), consumes all `L` bytes, and returns `Ok(())`. -/
theorem writeAll_full_one_call (buf : List Nat) :
    writeAllGo fullWriter (buf.length + 1) () buf =
      some (.done () (.ok ()) (if buf.isEmpty then 0 else 1)) := by
  cases buf with
  | nil => rfl
  | cons a l =>
    simp [writeAllGo, fullWriter, List.drop_length]

/-! ## Seek -/

/-- Embedding of `enum SeekFrom` (storage.rs lines 72–76): `Start` carries a
`u64`, `End` and `Current` carry an `i64`. -/
inductive SeekFrom where
  | Start (n : Nat)
  | End (n : Int)
  | Current (n : Int)
deriving DecidableEq, Repr

/-- Native calls issued by `<File as Seek>::seek`. -/
inductive SeekCall where
  | fseek (offset : Nat) (from_start : Bool)
  | ftell
  | fgetError
deriving DecidableEq, Repr

/-- Oracle for the native layer behind a `File`: the four native calls used
by the `Seek` implementation, acting on an abstract native state `σ`.
`storage_file_seek` returns the new state with the success flag; the other
three are the state's observations. -/
structure NativeFile (σ : Type) where
  storage_file_seek : σ → Nat → Bool → σ × Bool
  storage_file_tell : σ → Nat
  storage_file_size : σ → Nat
  storage_file_get_error : σ → Nat

/-- Embedding of the `match pos` translation in `<File as Seek>::seek`
(storage.rs lines 284–288): the native pair is (offset-type flag, offset),
the flag being `true` (absolute) for `Start` and `false` (relative) for
`End` and `Current`; each offset is range-checked into the native `u32` by
`try_into`, failing with `InvalidParameter`. -/
def seekTranslate : SeekFrom → Except Error (Bool × Nat)
  | .Start n =>
    if n < 2 ^ 32 then .ok (true, n) else .error .InvalidParameter
  | .End n =>
    if 0 ≤ n ∧ n < 2 ^ 32 then .ok (false, n.toNat)
    else .error .InvalidParameter
  | .Current n =>
    if 0 ≤ n ∧ n < 2 ^ 32 then .ok (false, n.toNat)
    else .error .InvalidParameter

/-- Embedding of `<File as Seek>::seek` (storage.rs lines 283–296) over the
native oracle.  On a successful native seek the position is queried with
`storage_file_tell` (whose `try_into().unwrap()` panics — `none` — beyond
`usize`); on a failed one the last error is queried and translated
(`from_sys`'s `unimplemented!` again being `none`). -/
def fileSeek {σ : Type} (nf : NativeFile σ) (s : σ) (pos : SeekFrom) :
    Option (σ × List SeekCall × Except Error Nat) :=
  match seekTranslate pos with
  | .error e => some (s, [], .error e)
  | .ok (offset_type, offset) =>
    let p := nf.storage_file_seek s offset offset_type
    if p.2 then
      if nf.storage_file_tell p.1 < 2 ^ 32 then
        some (p.1, [.fseek offset offset_type, .ftell],
          .ok (nf.storage_file_tell p.1))
      else none
    else
      match Error.from_sys (nf.storage_file_get_error p.1) with
      | some e => some (p.1, [.fseek offset offset_type, .fgetError], .error e)
      | none => none

/-- Claim C5: `File::seek(SeekFrom::End(n))` issues exactly the same native
seek call (same offset value, same relative offset-type flag as `Current`)
and returns the same result as `File::seek(SeekFrom::Current(n))`, for any
native state; an `End` seek is never resolved against the end of the
stream. -/
theorem seek_end_eq_current {σ : Type} (nf : NativeFile σ) (s : σ) (n : Int) :
    seekTranslate (.End n) = seekTranslate (.Current n) ∧
      fileSeek nf s (.End n) = fileSeek nf s (.Current n) :=
  ⟨rfl, rfl⟩

/-- Specification-side offset-type flag: absolute for `Start`, relative for
`End` and `Current`. -/
def seekNativeFlag : SeekFrom → Bool
  | .Start _ => true
  | .End _ => false
  | .Current _ => false

/-- Specification-side native offset value. -/
def seekNativeOffset : SeekFrom → Nat
  | .Start n => n
  | .End n => n.toNat
  | .Current n => n.toNat

/-- Specification-side range check: does the offset fit the native `u32`? -/
def seekFits : SeekFrom → Bool
  | .Start n => decide (n < 2 ^ 32)
  | .End n => decide (0 ≤ n ∧ n < 2 ^ 32)
  | .Current n => decide (0 ≤ n ∧ n < 2 ^ 32)

/-- Claim C6: `seek` translates `SeekFrom` into a native (offset,
offset-type) pair — absolute for `Start`, relative for `End` and `Current`
— with every offset range-checked into the native integer width; when the
offset does not fit, `seek` returns `Err(InvalidParameter)` without
performing any native call. -/
theorem fileSeek_range_check (pos : SeekFrom) :
    (seekFits pos = true →
      seekTranslate pos = .ok (seekNativeFlag pos, seekNativeOffset pos)) ∧
    (seekFits pos = false →
      seekTranslate pos = .error .InvalidParameter ∧
        ∀ (σ : Type) (nf : NativeFile σ) (s : σ),
          fileSeek nf s pos = some (s, [], .error .InvalidParameter)) := by
  constructor
  · intro hfit
    cases pos with
    | Start n =>
      simp only [seekFits, decide_eq_true_eq] at hfit
      simp [seekTranslate, seekNativeFlag, seekNativeOffset]
      omega
    | End n =>
      simp only [seekFits, decide_eq_true_eq] at hfit
      simp [seekTranslate, seekNativeFlag, seekNativeOffset, hfit.1]
      omega
    | Current n =>
      simp only [seekFits, decide_eq_true_eq] at hfit
      simp [seekTranslate, seekNativeFlag, seekNativeOffset, hfit.1]
      omega
  · intro hfit
    have htr : seekTranslate pos = .error .InvalidParameter := by
      cases pos with
      | Start n =>
        simp only [seekFits, decide_eq_false_iff_not] at hfit
        simp [seekTranslate]
        omega
      | End n =>
        simp only [seekFits, decide_eq_false_iff_not] at hfit
        simp [seekTranslate]
        intro h0
        rcases lt_or_le n (2 ^ 32) with hlt | hge
        · exact absurd ⟨h0, hlt⟩ hfit
        · omega
      | Current n =>
        simp only [seekFits, decide_eq_false_iff_not] at hfit
        simp [seekTranslate]
        intro h0
        rcases lt_or_le n (2 ^ 32) with hlt | hge
        · exact absurd ⟨h0, hlt⟩ hfit
        · omega
    exact ⟨htr, fun σ nf s => by simp [fileSeek, htr]⟩

/-- A trivial native oracle, used only to witness the range-check theorem. -/
def unitNativeFile : NativeFile Unit where
  storage_file_seek _ _ _ := ((), true)
  storage_file_tell _ := 0
  storage_file_size _ := 0
  storage_file_get_error _ := FS_Error_FSE_OK

/-- Witness for C6 at the concrete non-fitting offset `Current(-1)`. -/
theorem fileSeek_range_check_witness :
    seekTranslate (.Current (-1)) = .error .InvalidParameter ∧
      fileSeek unitNativeFile () (.Current (-1)) =
        some ((), [], .error .InvalidParameter) := by
  have h := (fileSeek_range_check (.Current (-1))).2 (by decide)
  exact ⟨h.1, h.2 Unit unitNativeFile ()⟩

/-! ## The default `Seek::stream_len` -/

/-- Embedding of the default `Seek::stream_len` (storage.rs lines 87–100)
over an arbitrary implementation `f` of the primitive `seek` (returning
`none` on a panic, which propagates).  It records the sequence of `seek`
requests issued.  `stream_position()` is `seek(Current(0))` (lines
102–104); the seek back to `Start(old_pos)` happens only under
`old_pos != len`, after the `try_into` of `old_pos` into the `u64` of
`Start` (whose failure is `InvalidParameter`). -/
def streamLenDefault {σ : Type}
    (f : σ → SeekFrom → Option (σ × Except Error Nat)) (s : σ) :
    Option (σ × List SeekFrom × Except Error Nat) :=
  match f s (.Current 0) with
  | none => none
  | some (s1, .error e) => some (s1, [.Current 0], .error e)
  | some (s1, .ok old_pos) =>
    match f s1 (.End 0) with
    | none => none
    | some (s2, .error e) => some (s2, [.Current 0, .End 0], .error e)
    | some (s2, .ok len) =>
      if old_pos ≠ len then
        if old_pos < 2 ^ 64 then
          match f s2 (.Start old_pos) with
          | none => none
          | some (s3, .error e) =>
            some (s3, [.Current 0, .End 0, .Start old_pos], .error e)
          | some (s3, .ok _) =>
            some (s3, [.Current 0, .End 0, .Start old_pos], .ok len)
        else some (s2, [.Current 0, .End 0], .error .InvalidParameter)
      else some (s2, [.Current 0, .End 0], .ok len)

/-- Claim C7: for every implementation of `Seek`, the provided `stream_len`
saves the current position via `stream_position` (= `seek(Current(0))`),
seeks to `End(0)` to learn the length, then seeks back to
`Start(old position)` only if that position differs from the length — no
third seek is issued when they are equal — and returns the length. -/
theorem streamLen_seek_sequence {σ : Type}
    (f : σ → SeekFrom → Option (σ × Except Error Nat)) (s s1 s2 : σ)
    (old_pos len : Nat)
    (h1 : f s (.Current 0) = some (s1, .ok old_pos))
    (h2 : f s1 (.End 0) = some (s2, .ok len))
    (hb : old_pos < 2 ^ 64) :
    streamLenDefault f s =
      if old_pos = len then some (s2, [.Current 0, .End 0], .ok len)
      else
        (f s2 (.Start old_pos)).map fun t =>
          (t.1, [.Current 0, .End 0, .Start old_pos],
            t.2.map fun _ => len) := by
  have hb' : old_pos < 18446744073709551616 := by
    norm_num at hb
    exact hb
  by_cases he : old_pos = len
  · subst he
    simp [streamLenDefault, h1, h2]
  · rw [if_neg he]
    cases hf3 : f s2 (.Start old_pos) with
    | none => simp [streamLenDefault, h1, h2, he, hb', hf3]
    | some t =>
      rcases t with ⟨s3, r⟩
      cases r with
      | error e => simp [streamLenDefault, h1, h2, he, hb', hf3, Except.map]
      | ok m => simp [streamLenDefault, h1, h2, he, hb', hf3, Except.map]

/-- Witness for C7 at a concrete `Seek` implementation that always answers
position 5: the saved position equals the length, so exactly two seeks are
issued and the length is returned. -/
theorem streamLen_seek_sequence_witness :
    streamLenDefault (fun (s : Nat) (_ : SeekFrom) => some (s, Except.ok 5)) 0 =
      some (0, [SeekFrom.Current 0, SeekFrom.End 0], Except.ok 5) := by
  have h := streamLen_seek_sequence
    (fun (s : Nat) (_ : SeekFrom) => some (s, Except.ok 5)) 0 0 0 5 5 rfl rfl
    (by norm_num)
  simpa using h

/-! ## File's `stream_len` override against the trait default -/

/-- Modelled from the spec: the native storage engine behind
`storage_file_seek` / `storage_file_tell` / `storage_file_size` is firmware
that is not among the sources.  Per the spec's external-interface
description, the native file keeps a position and a size; a seek with the
absolute offset-type flag sets the position and one with the relative flag
advances it from the current position, both reporting success; `tell`
reports the position and `size` the file size. -/
structure ModelFile where
  pos : Nat
  size : Nat
deriving DecidableEq, Repr

/-- The spec-modelled native layer as a `NativeFile` oracle. -/
def modelNative : NativeFile ModelFile where
  storage_file_seek s offset from_start :=
    if from_start then ({ s with pos := offset }, true)
    else ({ s with pos := s.pos + offset }, true)
  storage_file_tell s := s.pos
  storage_file_size s := s.size
  storage_file_get_error _ := FS_Error_FSE_OK

/-- `<File as Seek>::seek` at the spec-modelled native layer, reshaped to
the signature the generic `stream_len` default consumes (call trace
dropped, panics propagated). -/
def fileSeekModel (s : ModelFile) (pos : SeekFrom) :
    Option (ModelFile × Except Error Nat) :=
  (fileSeek modelNative s pos).map fun t => (t.1, t.2.2)

/-- Embedding of the overriding `<File as Seek>::stream_len` (storage.rs
lines 302–304): a direct native size query, whose `try_into().unwrap()`
panics (`none`) when the size exceeds `usize`. -/
def fileStreamLen (s : ModelFile) : Option (ModelFile × Except Error Nat) :=
  if modelNative.storage_file_size s < 2 ^ 32 then
    some (s, .ok (modelNative.storage_file_size s))
  else none

lemma fileSeekModel_zero_relative (p z : Nat) (hp : p < 2 ^ 32) :
    fileSeekModel ⟨p, z⟩ (.Current 0) = some (⟨p, z⟩, .ok p) ∧
      fileSeekModel ⟨p, z⟩ (.End 0) = some (⟨p, z⟩, .ok p) := by
  constructor <;>
    · simp [fileSeekModel, fileSeek, seekTranslate, modelNative, hp]
      omega

/-- Counterexample to C8 as stated: on a `File` whose native state has
position 0 and size 5, the override returns `Ok(5)` while the seek-based
trait default returns `Ok(0)` — the `End(0)` seek of the default is issued
as a relative-from-current native seek, so the "length" it learns is the
current position. -/
theorem fileStreamLen_override_ne_default :
    fileStreamLen ⟨0, 5⟩ = some (⟨0, 5⟩, .ok 5) ∧
      streamLenDefault fileSeekModel ⟨0, 5⟩ =
        some (⟨0, 5⟩, [.Current 0, .End 0], .ok 0) ∧
      (Except.ok 5 : Except Error Nat) ≠ .ok 0 := by
  refine ⟨by norm_num [fileStreamLen, modelNative], ?_, by simp⟩
  have h := fileSeekModel_zero_relative 0 5 (by norm_num)
  simp [streamLenDefault, h.1, h.2]

/-- Claim C8 (amended): at the modelled native layer, `File`'s overriding
`stream_len` returns the native file size and leaves the state unchanged,
while the generic seek-based trait default applied to the same `File`
returns the current position (its `End(0)` seek being issued as a
relative-from-current native seek); the two agree exactly when the current
position equals the file size. -/
theorem fileStreamLen_vs_default (s : ModelFile)
    (hp : s.pos < 2 ^ 32) (hs : s.size < 2 ^ 32) :
    fileStreamLen s = some (s, .ok s.size) ∧
      streamLenDefault fileSeekModel s =
        some (s, [.Current 0, .End 0], .ok s.pos) ∧
      ((Except.ok s.size : Except Error Nat) = .ok s.pos ↔ s.size = s.pos) := by
  obtain ⟨p, z⟩ := s
  refine ⟨?_, ?_, by simp⟩
  · simp only [fileStreamLen, modelNative]
    rw [if_pos hs]
  · have h := fileSeekModel_zero_relative p z hp
    simp [streamLenDefault, h.1, h.2]

/-- Witness for the amended C8 at the concrete native state with position 3
and size 3 (the only agreement case). -/
theorem fileStreamLen_vs_default_witness :
    fileStreamLen ⟨3, 3⟩ = some (⟨3, 3⟩, .ok 3) :=
  (fileStreamLen_vs_default ⟨3, 3⟩ (by norm_num) (by norm_num)).1

/-! ## `OpenOptions::open` and the `Drop` of `File` -/

/-- Native calls issued during `OpenOptions::open` (paths are opaque
tokens). -/
inductive OpenCall where
  | storage_file_alloc (handle : Nat)
  | storage_file_open (handle path access_mode open_mode : Nat)
  | storage_file_get_error (handle : Nat)
  | storage_file_close (handle : Nat)
deriving DecidableEq, Repr

/-- Oracle for the native layer during `open`: the handle that
`storage_file_alloc` yields (allocation is infallible), whether
`storage_file_open` succeeds for a given path and flag pair, and the code
`storage_file_get_error` reports afterwards. -/
structure OpenEnv where
  handle : Nat
  openOk : Nat → Nat → Nat → Bool
  lastErr : Nat

/-- Embedding of `OpenOptions::open` (storage.rs lines 228–244) together
with the `Drop` impl of `File` (lines 260–268).  A fresh `File` is
allocated, then `storage_file_open` is attempted with the accumulated
access and open modes.  On success the `File` (its handle) is returned and
no close happens inside `open`.  On failure the last error is queried on
that very handle and returned through `from_sys` (whose `unimplemented!`
panic is `none`), and — because the local `File` goes out of scope on the
`Err` path — `Drop` runs and `storage_file_close` is invoked on the handle
exactly once. -/
def OpenOptions.openPath (o : OpenOptions) (env : OpenEnv) (path : Nat) :
    Option (Except Error Nat × List OpenCall) :=
  let h := env.handle
  if env.openOk path o.access_mode o.open_mode then
    some (.ok h,
      [.storage_file_alloc h,
       .storage_file_open h path o.access_mode o.open_mode])
  else
    match Error.from_sys env.lastErr with
    | some e =>
      some (.error e,
        [.storage_file_alloc h,
         .storage_file_open h path o.access_mode o.open_mode,
         .storage_file_get_error h, .storage_file_close h])
    | none => none

/-- Claim C1: for every path and `OpenOptions` configuration, if the native
open call on the freshly allocated handle fails, `open` returns `Err` of
the `Error` obtained from the native last-error query on that handle, and
the native close is invoked exactly once on the handle (release runs even
on the failed-open path). -/
theorem openPath_fail_propagates_and_closes (env : OpenEnv) (o : OpenOptions)
    (path : Nat) (e : Error)
    (hfail : env.openOk path o.access_mode o.open_mode = false)
    (herr : Error.from_sys env.lastErr = some e) :
    o.openPath env path =
      some (.error e,
        [.storage_file_alloc env.handle,
         .storage_file_open env.handle path o.access_mode o.open_mode,
         .storage_file_get_error env.handle,
         .storage_file_close env.handle]) ∧
      ([OpenCall.storage_file_alloc env.handle,
        .storage_file_open env.handle path o.access_mode o.open_mode,
        .storage_file_get_error env.handle,
        .storage_file_close env.handle].count
          (.storage_file_close env.handle)) = 1 := by
  constructor
  · simp [OpenOptions.openPath, hfail, herr]
  · simp [List.count_cons]

/-- The native environment of the `create_new(true)`-on-existing-path
scenario: the open fails and the last error is the native "exists" code. -/
def existsEnv : OpenEnv := ⟨7, fun _ _ _ => false, FS_Error_FSE_EXIST⟩

/-- Witness for C1 at the `create_new(true)` configuration against an
existing path: `Error::Exists` is propagated and the handle is closed. -/
theorem openPath_fail_witness :
    ((OpenOptions.new.write true).create_new true).openPath existsEnv 0 =
      some (.error Error.Exists,
        [.storage_file_alloc 7, .storage_file_open 7 0 2 8,
         .storage_file_get_error 7, .storage_file_close 7]) :=
  (openPath_fail_propagates_and_closes existsEnv
    ((OpenOptions.new.write true).create_new true) 0 .Exists rfl rfl).1

/-! ## `File`'s `Read` and `Write` impls -/

/-- Oracle for the native layer behind `storage_file_read` /
`storage_file_write`: each returns only a byte count (a `u16`, as a
function of the requested length); the error register is what
`storage_file_get_error` would report, which a native read/write failure
sets — `File::read` / `File::write` never consult it. -/
structure RWEnv where
  readCount : Nat → Nat
  writeCount : Nat → Nat
  lastErr : Nat

/-- Embedding of `<File as Read>::read` (storage.rs lines 270–280): the
native count is wrapped in `Ok` unconditionally; the only non-`Ok` outcome
is the `buf.len().try_into().unwrap()` panic (`none`) when the buffer is
longer than `u16` holds. -/
def fileRead (env : RWEnv) (len : Nat) : Option (Except Error Nat) :=
  if len < 2 ^ 16 then some (.ok (env.readCount len)) else none

/-- Embedding of `<File as Write>::write` (storage.rs lines 312–320):
exactly like `read`, the count is wrapped in `Ok` unconditionally. -/
def fileWrite (env : RWEnv) (len : Nat) : Option (Except Error Nat) :=
  if len < 2 ^ 16 then some (.ok (env.writeCount len)) else none

/-- Embedding of `<File as Write>::flush` (storage.rs lines 322–324). -/
def fileFlush : Except Error Unit := .ok ()

/-- A native environment in which a read/write fails: the transferred count
is 0 and the error register holds the native internal-error code. -/
def rwFailEnv : RWEnv := ⟨fun _ => 0, fun _ => 0, FS_Error_FSE_INTERNAL⟩

/-- Counterexample to C4 as stated: in a native environment whose
read fails (count 0, error register holding the internal-error code),
`File::read` still returns `Ok(0)` and not `Err(Error::Internal)` — the
native failure is not surfaced. -/
theorem fileRead_ignores_native_fail :
    fileRead rwFailEnv 4 = some (.ok 0) ∧
      Error.from_sys rwFailEnv.lastErr = some .Internal ∧
      fileRead rwFailEnv 4 ≠ some (.error .Internal) := by
  refine ⟨rfl, rfl, ?_⟩
  intro h
  simp [fileRead, rwFailEnv] at h

/-- Claim C4 (amended): `File::read` and `File::write` always return `Ok`
of the native count — native read/write failures are never surfaced as
`Err` (only `open` and `seek` surface native errors) — and `flush` always
succeeds.  The sole non-`Ok` outcome is the buffer-length `unwrap` panic. -/
theorem fileRW_always_ok (env : RWEnv) (len : Nat) (hlen : len < 2 ^ 16) :
    fileRead env len = some (.ok (env.readCount len)) ∧
      fileWrite env len = some (.ok (env.writeCount len)) ∧
      fileFlush = .ok () :=
  ⟨by simp [fileRead]; omega, by simp [fileWrite]; omega, rfl⟩

/-- Witness for the amended C4 at a concrete environment and length. -/
theorem fileRW_always_ok_witness :
    fileRead rwFailEnv 4 = some (.ok (rwFailEnv.readCount 4)) :=
  (fileRW_always_ok rwFailEnv 4 (by norm_num)).1

end Storage
